import Mathlib

/-
Verification development for the per-tick whole-body QP balance controller
declared in src/systems/controllers/QPCommon.h.  The header gives the data
model (QPControllerState, AtlasParams, WholeBodyParams, VRefIntegratorParams,
RobotPropertyCache, QPControllerOutput, PIDOutput, REG) and the signatures of
wholeBodyPID, velocityReference, loadAvailableSupports and setupAndSolveQP;
the function bodies live in a translation unit that is not part of this tree,
so every behavioural definition below is modelled from the specification's
description of that behaviour and is marked as such in its doc comment.
Numeric values are embedded as rationals.
-/

namespace QPCtrl


/-- The regularization constant `REG = 1e-8` from QPCommon.h line 7,
embedded as the rational 1/10^8. -/
def REG : ℚ := 1 / 100000000


/-! ## Support state resolver (claim C1) -/


/-- One candidate support from the decoded command message: the body it
names, the command's per-support availability flag, the measured-contact
boolean for that body, and the foot height/force proxy value compared
against `AtlasParams.contact_threshold` when direct sensing is unavailable. -/
structure SupportCandidate where
  body_id : Nat
  available : Bool
  contact_sensed : Bool
  proxy : ℚ
deriving DecidableEq, Repr


/-- Modelled from the spec: the support-state resolver policy implemented by
`loadAvailableSupports` and the per-tick contact resolution inside
`setupAndSolveQP` (bodies not under src/).  A candidate is active iff it is
marked available in the command AND (its measured-contact boolean is true OR
its height/force proxy is below the configured contact threshold). -/
def supportActive (threshold : ℚ) (s : SupportCandidate) : Bool :=
  s.available && (s.contact_sensed || decide (s.proxy < threshold))


/-- Modelled from the spec: the resolver's active set is the subsequence of
the command's candidate list satisfying `supportActive`, kept in command
order so constraint-row semantics stay stable across ticks. -/
def activeSupports (threshold : ℚ) (cmd : List SupportCandidate) :
    List SupportCandidate :=
  cmd.filter (supportActive threshold)


/-! ## Whole-body PID and the position-error integrator (claim C3) -/


/-- Componentwise clamp of `x` to the interval `[lo, hi]`. -/
def clampTo (lo hi x : ℚ) : ℚ := max lo (min hi x)


/-- `IntegratorParams` from QPCommon.h lines 91-95, with the per-DOF vectors
embedded as functions over the DOF index. -/
structure IntegratorParams (n : Nat) where
  gains : Fin n → ℚ
  clamps : Fin n → ℚ
  eta : ℚ


/-- `Bounds` from QPCommon.h lines 97-100. -/
structure Bounds (n : Nat) where
  min : Fin n → ℚ
  max : Fin n → ℚ


/-- `WholeBodyParams` from QPCommon.h lines 102-110. -/
structure WholeBodyParams (n : Nat) where
  Kp : Fin n → ℚ
  Kd : Fin n → ℚ
  w_qdd : Fin n → ℚ
  damping_ratio : ℚ
  integrator : IntegratorParams n
  qdd_bounds : Bounds n


/-- `PIDOutput` from QPCommon.h lines 203-206. -/
structure PIDOutput (n : Nat) where
  q_ref : Fin n → ℚ
  qddot_des : Fin n → ℚ


/-- Modelled from the spec: the per-DOF position-error integrator update used
by `wholeBodyPID` (body not under src/) — exponential decay by `eta`, plus the
gain-weighted position error over the tick, clamped to `[-clamp, clamp]`. -/
def integStep (eta gain clampv dt e x : ℚ) : ℚ :=
  clampTo (-clampv) clampv (eta * x + gain * e * dt)


/-- Modelled from the spec: `wholeBodyPID` (declared at QPCommon.h line 210,
body not under src/).  Computes the position error, updates the position-error
integrator with decay `eta` and componentwise clamping, and returns desired
joint accelerations `Kd*(-qd) + Kp*(q_des - q) + integrator contribution`
together with the filtered desired position reference; the second component is
the updated integrator state stored back into
`QPControllerState.q_integrator_state`. -/
def wholeBodyPID (n : Nat) (params : WholeBodyParams n) (t t_prev : ℚ)
    (q qd q_des q_integ : Fin n → ℚ) : PIDOutput n × (Fin n → ℚ) :=
  let dt := t - t_prev
  let newInteg := fun i =>
    integStep params.integrator.eta (params.integrator.gains i)
      (params.integrator.clamps i) dt (q_des i - q i) (q_integ i)
  (⟨fun i => q_des i + newInteg i,
    fun i => params.Kd i * (-(qd i)) + params.Kp i * (q_des i - q i) +
      newInteg i⟩,
   newInteg)


/-! ## Velocity-reference integrator (claims C4 and C9) -/


/-- `VRefIntegratorParams` from QPCommon.h lines 86-89. -/
structure VRefIntegratorParams where
  zero_ankles_on_contact : Bool
  eta : ℚ


/-- `PositionIndicesCache` from QPCommon.h lines 65-72: per-joint-group DOF
index tables, embedded as lists of DOF indices. -/
structure PositionIndicesCache (n : Nat) where
  r_leg_kny : List (Fin n)
  l_leg_kny : List (Fin n)
  r_leg : List (Fin n)
  l_leg : List (Fin n)
  r_leg_ak : List (Fin n)
  l_leg_ak : List (Fin n)


/-- `BodyIdsCache` from QPCommon.h lines 74-78. -/
structure BodyIdsCache where
  r_foot : Int
  l_foot : Int
  pelvis : Int


/-- `RobotPropertyCache` from QPCommon.h lines 80-84. -/
structure RobotPropertyCache (n : Nat) where
  position_indices : PositionIndicesCache n
  body_ids : BodyIdsCache
  actuated_indices : List (Fin n)


/-- The ankle-DOF index list of foot `f` (0 = right, 1 = left), from the
robot property cache. -/
def ankleIndices (n : Nat) (rpc : RobotPropertyCache n) (f : Fin 2) :
    List (Fin n) :=
  if f = 0 then rpc.position_indices.r_leg_ak else rpc.position_indices.l_leg_ak


/-- Modelled from the spec: `velocityReference` (declared at QPCommon.h line
212, body not under src/).  Integrates the acceleration-derived per-DOF
velocity correction with decay gain `eta`; when `zero_ankles_on_contact` is
configured and a foot's contact boolean has just transitioned false→true
(detected against the stored previous-contact booleans), the integrator
entries for that foot's ankle DOFs are reset to exactly zero.  Returns the new
integrator state together with the updated previous-contact booleans that are
stored back into `QPControllerState.foot_contact_prev`. -/
def velocityReference (n : Nat) (params : VRefIntegratorParams)
    (rpc : RobotPropertyCache n) (t t_prev : ℚ) (qd qdd : Fin n → ℚ)
    (vref_state : Fin n → ℚ)
    (foot_contact foot_contact_prev : Fin 2 → Bool) :
    (Fin n → ℚ) × (Fin 2 → Bool) :=
  (fun i =>
    if params.zero_ankles_on_contact &&
        ((foot_contact 0 && !(foot_contact_prev 0) &&
            decide (i ∈ ankleIndices n rpc 0)) ||
          (foot_contact 1 && !(foot_contact_prev 1) &&
            decide (i ∈ ankleIndices n rpc 1))) then
      0
    else params.eta * vref_state i + qdd i * (t - t_prev),
   foot_contact)


/-! ## Solve orchestrator with fallback (claim C2) -/


/-- Outcome of the fast active-set solver, modelled from the spec's solve
protocol: an optimal solution together with the active constraint set it
settled on, a report of infeasibility, or a numerical failure. -/
inductive FastQPResult (α : Type) where
  | success (sol : α) (activeSet : List Nat)
  | infeasible
  | numericalFailure
deriving DecidableEq


/-- Outcome of the robust general solver, which runs with no warm start and
may or may not hand back a basis descriptor. -/
inductive RobustResult (α : Type) where
  | success (sol : α) (basis : Option (List Nat))
  | failure
deriving DecidableEq


/-- The explicit per-tick failure signal surfaced to the caller when both
solvers fail. -/
inductive TickFailure where
  | solverFailure
deriving DecidableEq


/-- An active set is size-consistent with the just-rebuilt problem when it
does not name more active constraints than the decision-vector dimension. -/
def activeSetConsistent (dim : Nat) (activeSet : List Nat) : Bool :=
  decide (activeSet.length ≤ dim)


/-- The fallback path: invoke the robust solver with no warm start; its
result (or an explicit failure signal) becomes the tick's result. -/
def fallbackSolve (α : Type) (robustSolve : Unit → RobustResult α) :
    Except TickFailure (α × List Nat) :=
  match robustSolve () with
  | .success sol b => .ok (sol, b.getD [])
  | .failure => .error .solverFailure


/-- Modelled from the spec: the per-tick solve protocol of `setupAndSolveQP`
(declared at QPCommon.h line 216, body not under src/).  The external solvers
are oracles passed as functions: `fastSolve` receives the warm start (the
previous tick's stored active set from `QPControllerState.active`), the
robust solver takes none.  The fast solver is attempted first; on reported
infeasibility, numerical failure, or an active-set size inconsistent with the
just-rebuilt problem of decision dimension `dim`, the tick falls back to the
robust solver. -/
def solveTick (α : Type) (dim : Nat) (prevActive : List Nat)
    (fastSolve : List Nat → FastQPResult α)
    (robustSolve : Unit → RobustResult α) :
    Except TickFailure (α × List Nat) :=
  match fastSolve prevActive with
  | .success sol activeSet =>
      if activeSetConsistent dim activeSet then .ok (sol, activeSet)
      else fallbackSolve α robustSolve
  | .infeasible => fallbackSolve α robustSolve
  | .numericalFailure => fallbackSolve α robustSolve


/-! ## Tagged warm-start token (claim C5) -/


/-- Modelled from the spec (design note on warm-start handles): the tagged
warm-start token abstracting the raw `vbasis`/`cbasis` arrays and lengths of
`QPControllerState` (QPCommon.h lines 58-62) — the stored basis arrays
together with tags recording the active-support identities and the
decision-vector dimension at the moment the basis was captured. -/
structure WarmStartToken where
  supports : List Nat
  dim : Nat
  vbasis : List Int
  cbasis : List Int
deriving DecidableEq, Repr


/-- Modelled from the spec: tag-based warm-start validity — the token is
valid for the current tick only if the active supports and the
decision-vector dimension are unchanged from capture. -/
def warmStartValid (tok : WarmStartToken) (curSupports : List Nat)
    (curDim : Nat) : Bool :=
  decide (tok.supports = curSupports) && decide (tok.dim = curDim)


/-- Modelled from the spec: a stored token is reused only when its tags
match the current tick; otherwise it is discarded and the solve is a cold
start (`none`). -/
def reuseWarmStart (tok : Option WarmStartToken) (curSupports : List Nat)
    (curDim : Nat) : Option WarmStartToken :=
  match tok with
  | none => none
  | some t => if warmStartValid t curSupports curDim then some t else none


/-! ## Cost matrix assembly and regularization (claims C6 and C8) -/


/-- A dense square rational matrix over the decision vector. -/
def QMat (n : Nat) := Fin n → Fin n → ℚ


/-- Symmetry of a square matrix. -/
def matSymm (n : Nat) (M : QMat n) : Prop := ∀ i j, M i j = M j i


/-- The quadratic form x ↦ xᵀ M x. -/
def quadForm (n : Nat) (M : QMat n) (x : Fin n → ℚ) : ℚ :=
  ∑ i, ∑ j, x i * M i j * x j


/-- Symmetric positive semi-definiteness. -/
def matPSD (n : Nat) (M : QMat n) : Prop :=
  matSymm n M ∧ ∀ x, 0 ≤ quadForm n M x


/-- Symmetric strict positive definiteness. -/
def matPD (n : Nat) (M : QMat n) : Prop :=
  matSymm n M ∧ ∀ x, (∃ i, x i ≠ 0) → 0 < quadForm n M x


/-- One weighted-least-squares term of the QP cost (spec §4.3): a linear map
`A` of the decision vector and a diagonal weight vector `w`, contributing
`AᵀWA` to the cost matrix.  Every cost contribution listed by the spec —
`qdd`-deviation tracking, body-acceleration objectives, the `w_grf` force
regularizer, the `w_slack` slack penalty and the centroidal angular-momentum
rate term — has this shape. -/
structure CostTerm (n : Nat) where
  rows : Nat
  A : Fin rows → Fin n → ℚ
  w : Fin rows → ℚ


/-- The Gram-matrix contribution `AᵀWA` of one cost term. -/
def gramTerm (n : Nat) (t : CostTerm n) : QMat n :=
  fun i j => ∑ k, t.w k * t.A k i * t.A k j


/-- Modelled from the spec: the assembled cost matrix `Hqp` (preallocated at
QPCommon.h line 149, assembled by the builder whose body is not under src/)
before regularization — the sum of the weighted Gram contributions of all
cost terms. -/
def hqpBase (n : Nat) : List (CostTerm n) → QMat n
  | [] => fun _ _ => 0
  | t :: ts => fun i j => gramTerm n t i j + hqpBase n ts i j


/-- Modelled from the spec: the matrix handed to the solver — `hqpBase` with
the regularization constant `REG` added to every diagonal entry. -/
def hqpReg (n : Nat) (terms : List (CostTerm n)) : QMat n :=
  fun i j => hqpBase n terms i j + (if i = j then REG else 0)


/-- Modelled from the spec: the QP problem builder (the assembly phase of
`setupAndSolveQP`, declared at QPCommon.h line 216, body not under src/) as a
pure function of the per-tick input tuple.  From the parameter set, the
previous-tick integrator state and the measured `(q, qd)` it forms the §4.2
acceleration reference, assembles the regularized cost matrix from the
`qdd`-deviation term plus the command-derived cost terms, the linear cost
vector, and passes the dynamics equality rows and inequality rows through.
It reads no global state. -/
def buildQP (n : Nat) (params : WholeBodyParams n) (t t_prev : ℚ)
    (q qd q_des q_integ : Fin n → ℚ) (cmdTerms : List (CostTerm n))
    (eqRows ineqRows : List ((Fin n → ℚ) × ℚ)) :
    QMat n × (Fin n → ℚ) × List ((Fin n → ℚ) × ℚ) ×
      List ((Fin n → ℚ) × ℚ) :=
  (hqpReg n
      (⟨n, fun k i => if k = i then 1 else 0, fun k => params.w_qdd k⟩ ::
        cmdTerms),
   fun i => -(params.w_qdd i *
     (wholeBodyPID n params t t_prev q qd q_des q_integ).1.qddot_des i),
   eqRows, ineqRows)


/-! ## Persistent controller state across ticks (claim C7) -/


/-- `QPControllerState` from QPCommon.h lines 51-63, with the raw
`vbasis`/`cbasis` arrays and lengths abstracted as the tagged warm-start
token of the design notes: the previous tick's timestamp, one
previous-contact boolean per candidate contact body (the two feet), the two
per-DOF integrator vectors, the retained active set, and the nullable
warm-start descriptor.  The type is indexed by the DOF count `n` fixed at
controller construction, so the integrator vectors always have exactly one
entry per DOF. -/
structure ControllerState (n : Nat) where
  t_prev : ℚ
  foot_contact_prev : Fin 2 → Bool
  vref_integrator_state : Fin n → ℚ
  q_integrator_state : Fin n → ℚ
  active : List Nat
  warm_start : Option WarmStartToken


/-- Modelled from the spec: one synchronous controller tick threading the
persistent state.  `wholeBodyPID` produces the updated position-error
integrator, the solve orchestrator produces the tick result and the new
active set and warm-start token, and `velocityReference` produces the
updated velocity-reference integrator and previous-contact booleans; the new
state is assembled from exactly these single updates. -/
def controllerTick (n : Nat) (wb : WholeBodyParams n)
    (vp : VRefIntegratorParams) (rpc : RobotPropertyCache n) (t : ℚ)
    (q qd q_des : Fin n → ℚ) (foot_contact : Fin 2 → Bool) (dim : Nat)
    (curSupports : List Nat)
    (fastSolve : List Nat → FastQPResult (Fin n → ℚ))
    (robustSolve : Unit → RobustResult (Fin n → ℚ))
    (s : ControllerState n) :
    ControllerState n × Except TickFailure ((Fin n → ℚ) × List Nat) :=
  let pid := wholeBodyPID n wb t s.t_prev q qd q_des s.q_integrator_state
  let solveRes := solveTick (Fin n → ℚ) dim s.active fastSolve robustSolve
  let qdd := match solveRes with
    | .ok out => out.1
    | .error _ => pid.1.qddot_des
  let vr := velocityReference n vp rpc t s.t_prev qd qdd
    s.vref_integrator_state foot_contact s.foot_contact_prev
  (⟨t, vr.2, vr.1, pid.2,
    match solveRes with
    | .ok out => out.2
    | .error _ => s.active,
    match solveRes with
    | .ok out => some ⟨curSupports, dim, [], []⟩
    | .error _ => none⟩,
   solveRes)


theorem clampTo_abs_le (c x : ℚ) (hc : 0 ≤ c) : |clampTo (-c) c x| ≤ c := by
  rw [abs_le]
  constructor
  · exact le_max_left _ _
  · exact max_le (by linarith) (min_le_left _ _)


theorem clampTo_eq_self (lo hi x : ℚ) (h1 : lo ≤ x) (h2 : x ≤ hi) :
    clampTo lo hi x = x := by
  unfold clampTo
  rw [min_eq_right h2, max_eq_right h1]


theorem clampTo_eq_hi (lo hi x : ℚ) (hlo : lo ≤ hi) (h : hi ≤ x) :
    clampTo lo hi x = hi := by
  unfold clampTo
  rw [min_eq_left h, max_eq_right hlo]


theorem clampTo_eq_lo (lo hi x : ℚ) (hlo : lo ≤ hi) (h : x ≤ lo) :
    clampTo lo hi x = lo := by
  unfold clampTo
  rw [min_eq_right (h.trans hlo), max_eq_left h]


theorem clampTo_lipschitz (lo hi x y : ℚ) :
    |clampTo lo hi x - clampTo lo hi y| ≤ |x - y| := by
  unfold clampTo
  calc |max lo (min hi x) - max lo (min hi y)|
      ≤ max |lo - lo| |min hi x - min hi y| := abs_max_sub_max_le_max _ _ _ _
    _ ≤ |x - y| := by
        apply max_le
        · simp [abs_nonneg]
        · calc |min hi x - min hi y| ≤ max |hi - hi| |x - y| :=
            abs_min_sub_min_le_max _ _ _ _
          _ ≤ |x - y| := by simp [abs_nonneg]


theorem integStep_abs_le (eta gain clampv dt e x : ℚ) (hc : 0 ≤ clampv) :
    |integStep eta gain clampv dt e x| ≤ clampv :=
  clampTo_abs_le clampv _ hc


theorem integStep_contraction (eta gain clampv dt e x y : ℚ) (h0 : 0 ≤ eta) :
    |integStep eta gain clampv dt e x - integStep eta gain clampv dt e y| ≤
      eta * |x - y| := by
  unfold integStep
  calc |clampTo (-clampv) clampv (eta * x + gain * e * dt) -
        clampTo (-clampv) clampv (eta * y + gain * e * dt)|
      ≤ |(eta * x + gain * e * dt) - (eta * y + gain * e * dt)| :=
        clampTo_lipschitz _ _ _ _
    _ = eta * |x - y| := by
        rw [show (eta * x + gain * e * dt) - (eta * y + gain * e * dt) =
          eta * (x - y) by ring, abs_mul, abs_of_nonneg h0]


theorem integStep_fixedPoint (eta gain clampv dt e : ℚ) (hc : 0 ≤ clampv)
    (h0 : 0 ≤ eta) (h1 : eta < 1) :
    integStep eta gain clampv dt e
        (clampTo (-clampv) clampv (gain * e * dt / (1 - eta))) =
      clampTo (-clampv) clampv (gain * e * dt / (1 - eta)) := by
  have hne : (1 : ℚ) - eta > 0 := by linarith
  set a := gain * e * dt with ha
  set u := a / (1 - eta) with hu
  have hau : a = (1 - eta) * u := by
    rw [hu]
    field_simp
  rcases le_or_lt u (-clampv) with hlo | hgt
  · have hL : clampTo (-clampv) clampv u = -clampv :=
      clampTo_eq_lo _ _ _ (by linarith) hlo
    rw [hL]
    unfold integStep
    apply clampTo_eq_lo _ _ _ (by linarith)
    have hub : a ≤ (1 - eta) * (-clampv) := by
      rw [hau]
      exact mul_le_mul_of_nonneg_left hlo (le_of_lt hne)
    nlinarith
  · rcases le_or_lt clampv u with hhi | hmid
    · have hL : clampTo (-clampv) clampv u = clampv :=
        clampTo_eq_hi _ _ _ (by linarith) hhi
      rw [hL]
      unfold integStep
      apply clampTo_eq_hi _ _ _ (by linarith)
      have hlb : (1 - eta) * clampv ≤ a := by
        rw [hau]
        exact mul_le_mul_of_nonneg_left hhi (le_of_lt hne)
      nlinarith
    · have hL : clampTo (-clampv) clampv u = u :=
        clampTo_eq_self _ _ _ hgt.le (le_of_lt hmid)
      rw [hL]
      unfold integStep
      have harg : eta * u + a = u := by
        rw [hau]
        ring
      rw [harg]
      exact clampTo_eq_self _ _ _ hgt.le (le_of_lt hmid)


theorem integStep_iterate_le (eta gain clampv dt e : ℚ) (hc : 0 ≤ clampv)
    (h0 : 0 ≤ eta) (h1 : eta < 1) (x0 : ℚ) (k : ℕ) :
    |(integStep eta gain clampv dt e)^[k] x0 -
        clampTo (-clampv) clampv (gain * e * dt / (1 - eta))| ≤
      eta ^ k *
        |x0 - clampTo (-clampv) clampv (gain * e * dt / (1 - eta))| := by
  set L := clampTo (-clampv) clampv (gain * e * dt / (1 - eta)) with hLdef
  induction k with
  | zero => simp
  | succ k ih =>
    rw [Function.iterate_succ_apply']
    calc |integStep eta gain clampv dt e
            ((integStep eta gain clampv dt e)^[k] x0) - L|
        = |integStep eta gain clampv dt e
            ((integStep eta gain clampv dt e)^[k] x0) -
          integStep eta gain clampv dt e L| := by
          rw [integStep_fixedPoint eta gain clampv dt e hc h0 h1]
      _ ≤ eta * |(integStep eta gain clampv dt e)^[k] x0 - L| :=
          integStep_contraction _ _ _ _ _ _ _ h0
      _ ≤ eta * (eta ^ k * |x0 - L|) :=
          mul_le_mul_of_nonneg_left ih h0
      _ = eta ^ (k + 1) * |x0 - L| := by ring


/-- Claim C3: for every tick, `wholeBodyPID` updates the position-error
integrator by exponential decay `eta` plus the gain-weighted error, clamps it
componentwise to `[-clamp, clamp]` (so the stored integrator state never
exceeds the clamp in magnitude), returns desired accelerations
`Kd*(-qd) + Kp*(q_des - q) + integrator contribution` together with the
filtered position reference, and under repetition of the same per-DOF update
with constant error and `eta < 1` the integrator converges geometrically to a
fixed point bounded by the clamp. -/
theorem wholeBodyPID_spec (n : Nat) (params : WholeBodyParams n)
    (t t_prev : ℚ) (q qd q_des q_integ : Fin n → ℚ)
    (hc : ∀ i, 0 ≤ params.integrator.clamps i)
    (h0 : 0 ≤ params.integrator.eta) (h1 : params.integrator.eta < 1) :
    (∀ i, (wholeBodyPID n params t t_prev q qd q_des q_integ).2 i =
      integStep params.integrator.eta (params.integrator.gains i)
        (params.integrator.clamps i) (t - t_prev) (q_des i - q i)
        (q_integ i)) ∧
    (∀ i, |(wholeBodyPID n params t t_prev q qd q_des q_integ).2 i| ≤
      params.integrator.clamps i) ∧
    (∀ i, (wholeBodyPID n params t t_prev q qd q_des q_integ).1.qddot_des i =
      params.Kd i * (-(qd i)) + params.Kp i * (q_des i - q i) +
        (wholeBodyPID n params t t_prev q qd q_des q_integ).2 i) ∧
    (∀ i, (wholeBodyPID n params t t_prev q qd q_des q_integ).1.q_ref i =
      q_des i + (wholeBodyPID n params t t_prev q qd q_des q_integ).2 i) ∧
    (∀ i, ∃ L : ℚ, |L| ≤ params.integrator.clamps i ∧
      integStep params.integrator.eta (params.integrator.gains i)
        (params.integrator.clamps i) (t - t_prev) (q_des i - q i) L = L ∧
      ∀ k : ℕ,
        |(integStep params.integrator.eta (params.integrator.gains i)
            (params.integrator.clamps i) (t - t_prev)
            (q_des i - q i))^[k] (q_integ i) - L| ≤
          params.integrator.eta ^ k * |q_integ i - L|) := by
  refine ⟨fun i => rfl, ?_, fun i => rfl, fun i => rfl, ?_⟩
  · intro i
    exact integStep_abs_le _ _ _ _ _ _ (hc i)
  · intro i
    refine ⟨clampTo (-(params.integrator.clamps i)) (params.integrator.clamps i)
      (params.integrator.gains i * (q_des i - q i) * (t - t_prev) /
        (1 - params.integrator.eta)), ?_, ?_, ?_⟩
    · exact clampTo_abs_le _ _ (hc i)
    · exact integStep_fixedPoint _ _ _ _ _ (hc i) h0 h1
    · exact integStep_iterate_le _ _ _ _ _ (hc i) h0 h1 _


/-- Witness for C3: a one-DOF instance with gains 1, clamp 1 and decay 1/2,
with every hypothesis discharged at the concrete values. -/
theorem wholeBodyPID_spec_witness :
    (∀ i : Fin 1, (0 : ℚ) ≤ (1 : ℚ)) ∧ (0 : ℚ) ≤ (1 / 2 : ℚ) ∧
      (1 / 2 : ℚ) < 1 ∧
      ∀ i : Fin 1,
        |(wholeBodyPID 1
            ⟨fun _ => 1, fun _ => 1, fun _ => 1, 1,
              ⟨fun _ => 1, fun _ => 1, 1 / 2⟩,
              ⟨fun _ => -10, fun _ => 10⟩⟩
            1 0 (fun _ => 0) (fun _ => 0) (fun _ => 3) (fun _ => 0)).2 i| ≤
          1 :=
  ⟨fun _ => by norm_num, by norm_num, by norm_num,
    (wholeBodyPID_spec 1
      ⟨fun _ => 1, fun _ => 1, fun _ => 1, 1,
        ⟨fun _ => 1, fun _ => 1, 1 / 2⟩, ⟨fun _ => -10, fun _ => 10⟩⟩
      1 0 (fun _ => 0) (fun _ => 0) (fun _ => 3) (fun _ => 0)
      (fun _ => by norm_num) (by norm_num) (by norm_num)).2.1⟩


/-- Claim C4: with `zero_ankles_on_contact` true, `velocityReference` sets the
velocity-reference integrator entries of a foot's ankle DOFs exactly to zero
on the tick where that foot's contact boolean transitions false→true; with the
flag false every entry is just the decayed-and-integrated update, unaffected
by contact; and the returned previous-contact booleans equal the current
contact booleans (the side-effect update of
`QPControllerState.foot_contact_prev`). -/
theorem velocityReference_ankle_reset (n : Nat)
    (params : VRefIntegratorParams) (rpc : RobotPropertyCache n)
    (t t_prev : ℚ) (qd qdd vref_state : Fin n → ℚ)
    (foot_contact foot_contact_prev : Fin 2 → Bool) :
    (params.zero_ankles_on_contact = true →
      ∀ f : Fin 2, foot_contact f = true → foot_contact_prev f = false →
        ∀ i ∈ ankleIndices n rpc f,
          (velocityReference n params rpc t t_prev qd qdd vref_state
            foot_contact foot_contact_prev).1 i = 0) ∧
    (params.zero_ankles_on_contact = false →
      ∀ i, (velocityReference n params rpc t t_prev qd qdd vref_state
          foot_contact foot_contact_prev).1 i =
        params.eta * vref_state i + qdd i * (t - t_prev)) ∧
    ((velocityReference n params rpc t t_prev qd qdd vref_state
        foot_contact foot_contact_prev).2 = foot_contact) := by
  refine ⟨?_, ?_, rfl⟩
  · intro hz f hcur hprev i hi
    have hf : f = 0 ∨ f = 1 := by
      rcases f with ⟨v, hv⟩
      rcases v with _ | _ | v
      · exact Or.inl rfl
      · exact Or.inr rfl
      · exact absurd hv (by omega)
    rcases hf with rfl | rfl
    · simp [velocityReference, hz, hcur, hprev, hi]
    · simp [velocityReference, hz, hcur, hprev, hi]
  · intro hz i
    simp [velocityReference, hz]


/-- Witness for C4: a two-DOF robot whose right ankle is DOF 0, with the
right foot's contact transitioning false→true and the flag set. -/
theorem velocityReference_ankle_reset_witness :
    ((true : Bool) = true →
      ∀ f : Fin 2, (fun g : Fin 2 => g == 0) f = true →
        (fun _ : Fin 2 => false) f = false →
        ∀ i ∈ ankleIndices 2 ⟨⟨[], [], [], [], [0], [1]⟩, ⟨1, 2, 3⟩, []⟩ f,
          (velocityReference 2 ⟨true, 1 / 2⟩
            ⟨⟨[], [], [], [], [0], [1]⟩, ⟨1, 2, 3⟩, []⟩ 1 0 (fun _ => 0)
            (fun _ => 1) (fun _ => 4) (fun g => g == 0)
            (fun _ => false)).1 i = 0) ∧
    ((true : Bool) = false →
      ∀ i, (velocityReference 2 ⟨true, 1 / 2⟩
          ⟨⟨[], [], [], [], [0], [1]⟩, ⟨1, 2, 3⟩, []⟩ 1 0 (fun _ => 0)
          (fun _ => 1) (fun _ => 4) (fun g => g == 0)
          (fun _ => false)).1 i =
        (1 / 2 : ℚ) * 4 + 1 * (1 - 0)) ∧
    ((velocityReference 2 ⟨true, 1 / 2⟩
        ⟨⟨[], [], [], [], [0], [1]⟩, ⟨1, 2, 3⟩, []⟩ 1 0 (fun _ => 0)
        (fun _ => 1) (fun _ => 4) (fun g => g == 0)
        (fun _ => false)).2 = fun g : Fin 2 => g == 0) :=
  velocityReference_ankle_reset 2 ⟨true, 1 / 2⟩
    ⟨⟨[], [], [], [], [0], [1]⟩, ⟨1, 2, 3⟩, []⟩ 1 0 (fun _ => 0)
    (fun _ => 1) (fun _ => 4) (fun g => g == 0) (fun _ => false)


/-- Claim C9: the velocity-reference update consumes the same tick's
commanded joint accelerations — two `velocityReference` calls identical in
every argument except `qdd` return different integrated velocity references,
so the state update cannot be computed before `qdd` is available. -/
theorem velocityReference_depends_on_qdd :
    (velocityReference 1 ⟨false, 1⟩ ⟨⟨[], [], [], [], [], []⟩, ⟨1, 2, 3⟩, []⟩
        1 0 (fun _ => 0) (fun _ => 0) (fun _ => 0) (fun _ => false)
        (fun _ => false)).1 ≠
      (velocityReference 1 ⟨false, 1⟩
        ⟨⟨[], [], [], [], [], []⟩, ⟨1, 2, 3⟩, []⟩ 1 0 (fun _ => 0)
        (fun _ => 1) (fun _ => 0) (fun _ => false) (fun _ => false)).1 := by
  intro h
  have h0 := congrFun h 0
  simp only [velocityReference] at h0
  norm_num at h0


/-- Claim C2: the orchestrator first attempts the fast solver on the previous
tick's stored active set; it falls back to the robust solver (with no warm
start) exactly when the fast solver reports infeasibility, numerical failure,
or an active-set size inconsistent with the just-rebuilt problem; and every
tick resolves to either a valid output or the explicit failure signal — there
is no third outcome past the per-tick boundary. -/
theorem solveTick_protocol (α : Type) (dim : Nat) (prevActive : List Nat)
    (fastSolve : List Nat → FastQPResult α)
    (robustSolve : Unit → RobustResult α) :
    (∀ sol activeSet, fastSolve prevActive = .success sol activeSet →
      activeSetConsistent dim activeSet = true →
      solveTick α dim prevActive fastSolve robustSolve =
        .ok (sol, activeSet)) ∧
    ((fastSolve prevActive = .infeasible ∨
        fastSolve prevActive = .numericalFailure ∨
        (∃ sol activeSet, fastSolve prevActive = .success sol activeSet ∧
          activeSetConsistent dim activeSet = false)) →
      solveTick α dim prevActive fastSolve robustSolve =
        fallbackSolve α robustSolve) ∧
    ((∃ out, solveTick α dim prevActive fastSolve robustSolve = .ok out) ∨
      solveTick α dim prevActive fastSolve robustSolve =
        .error .solverFailure) := by
  refine ⟨?_, ?_, ?_⟩
  · intro sol activeSet hfast hcons
    simp [solveTick, hfast, hcons]
  · rintro (hfast | hfast | ⟨sol, activeSet, hfast, hcons⟩)
    · simp [solveTick, hfast]
    · simp [solveTick, hfast]
    · simp [solveTick, hfast, hcons]
  · rcases hfast : fastSolve prevActive with ⟨sol, activeSet⟩ | _ | _
    · by_cases hcons : activeSetConsistent dim activeSet = true
      · exact Or.inl ⟨(sol, activeSet), by simp [solveTick, hfast, hcons]⟩
      · rw [Bool.not_eq_true] at hcons
        rcases hrob : robustSolve () with ⟨sol2, b⟩ | _
        · exact Or.inl ⟨(sol2, b.getD []),
            by simp [solveTick, fallbackSolve, hfast, hcons, hrob]⟩
        · exact Or.inr
            (by simp [solveTick, fallbackSolve, hfast, hcons, hrob])
    · rcases hrob : robustSolve () with ⟨sol2, b⟩ | _
      · exact Or.inl ⟨(sol2, b.getD []),
          by simp [solveTick, fallbackSolve, hfast, hrob]⟩
      · exact Or.inr (by simp [solveTick, fallbackSolve, hfast, hrob])
    · rcases hrob : robustSolve () with ⟨sol2, b⟩ | _
      · exact Or.inl ⟨(sol2, b.getD []),
          by simp [solveTick, fallbackSolve, hfast, hrob]⟩
      · exact Or.inr (by simp [solveTick, fallbackSolve, hfast, hrob])


/-- Witness for C2: a concrete tick in which the fast solver reports
infeasibility and the robust solver succeeds. -/
theorem solveTick_protocol_witness :
    ((fun _ : List Nat => (FastQPResult.infeasible : FastQPResult ℚ)) [0] =
        FastQPResult.infeasible ∨
      (fun _ : List Nat => (FastQPResult.infeasible : FastQPResult ℚ)) [0] =
        FastQPResult.numericalFailure ∨
      (∃ sol activeSet,
        (fun _ : List Nat => (FastQPResult.infeasible : FastQPResult ℚ)) [0] =
          FastQPResult.success sol activeSet ∧
        activeSetConsistent 2 activeSet = false)) ∧
    solveTick ℚ 2 [0]
        (fun _ => FastQPResult.infeasible)
        (fun _ => RobustResult.success 7 none) =
      fallbackSolve ℚ (fun _ => RobustResult.success 7 none) :=
  ⟨Or.inl rfl,
    (solveTick_protocol ℚ 2 [0] (fun _ => FastQPResult.infeasible)
      (fun _ => RobustResult.success 7 none)).2.1 (Or.inl rfl)⟩


/-- Claim C5: a stored warm-start token is reused iff the active-support
identities and the decision-vector dimension are unchanged from capture
(otherwise the solve is a cold start), and validity is decided purely by the
dimension tags: two tokens with equal tags but arbitrary stored basis arrays
(in particular, arrays of different lengths) get the same verdict. -/
theorem reuseWarmStart_tagged (tok : Option WarmStartToken)
    (curSupports : List Nat) (curDim : Nat) :
    (∀ t, reuseWarmStart tok curSupports curDim = some t ↔
      (tok = some t ∧ t.supports = curSupports ∧ t.dim = curDim)) ∧
    (tok = none → reuseWarmStart tok curSupports curDim = none) ∧
    (∀ t t' : WarmStartToken, t.supports = t'.supports → t.dim = t'.dim →
      warmStartValid t curSupports curDim =
        warmStartValid t' curSupports curDim) := by
  refine ⟨?_, ?_, ?_⟩
  · intro t
    constructor
    · intro h
      rcases tok with _ | t0
      · exact absurd h (by simp [reuseWarmStart])
      · by_cases hv : warmStartValid t0 curSupports curDim = true
        · have ht : t0 = t := by
            simp only [reuseWarmStart, hv, if_true] at h
            exact Option.some.inj h
          subst ht
          have hv2 := hv
          unfold warmStartValid at hv2
          simp only [Bool.and_eq_true, decide_eq_true_eq] at hv2
          exact ⟨rfl, hv2.1, hv2.2⟩
        · rw [Bool.not_eq_true] at hv
          exact absurd h (by simp [reuseWarmStart, hv])
    · rintro ⟨rfl, hs, hd⟩
      simp [reuseWarmStart, warmStartValid, hs, hd]
  · rintro rfl
    rfl
  · intro t t' hs hd
    unfold warmStartValid
    rw [hs, hd]


/-- Witness for C5: a token captured for supports `[1, 2]` at dimension 30 is
reused at the same tick tags; two tokens with the same tags but basis arrays
of different lengths get the same validity verdict. -/
theorem reuseWarmStart_tagged_witness :
    (reuseWarmStart (some ⟨[1, 2], 30, [0, 1], [2]⟩) [1, 2] 30 =
        some ⟨[1, 2], 30, [0, 1], [2]⟩ ↔
      (some ⟨[1, 2], 30, [0, 1], [2]⟩ =
          some (⟨[1, 2], 30, [0, 1], [2]⟩ : WarmStartToken) ∧
        [1, 2] = [1, 2] ∧ 30 = 30)) ∧
    ((some ⟨[1, 2], 30, [0, 1], [2]⟩ : Option WarmStartToken) = none →
      reuseWarmStart (some ⟨[1, 2], 30, [0, 1], [2]⟩) [1, 2] 30 = none) ∧
    (∀ t t' : WarmStartToken, t.supports = t'.supports → t.dim = t'.dim →
      warmStartValid t [1, 2] 30 = warmStartValid t' [1, 2] 30) := by
  have h := reuseWarmStart_tagged (some ⟨[1, 2], 30, [0, 1], [2]⟩) [1, 2] 30
  exact ⟨h.1 ⟨[1, 2], 30, [0, 1], [2]⟩, h.2.1, h.2.2⟩


theorem quadForm_gramTerm (n : Nat) (t : CostTerm n) (x : Fin n → ℚ) :
    quadForm n (gramTerm n t) x =
      ∑ k, t.w k *
        ((∑ i, t.A k i * x i) * (∑ j, t.A k j * x j)) := by
  unfold quadForm gramTerm
  calc ∑ i, ∑ j, x i * (∑ k, t.w k * t.A k i * t.A k j) * x j
      = ∑ i, ∑ j, ∑ k,
          t.w k * ((t.A k i * x i) * (t.A k j * x j)) := by
        refine Finset.sum_congr rfl fun i _ => ?_
        refine Finset.sum_congr rfl fun j _ => ?_
        rw [mul_assoc, Finset.sum_mul, Finset.mul_sum]
        exact Finset.sum_congr rfl fun k _ => by ring
    _ = ∑ i, ∑ k, ∑ j,
          t.w k * ((t.A k i * x i) * (t.A k j * x j)) :=
        Finset.sum_congr rfl fun i _ => Finset.sum_comm
    _ = ∑ k, ∑ i, ∑ j,
          t.w k * ((t.A k i * x i) * (t.A k j * x j)) :=
        Finset.sum_comm
    _ = ∑ k, t.w k *
          ((∑ i, t.A k i * x i) * (∑ j, t.A k j * x j)) := by
        refine Finset.sum_congr rfl fun k _ => ?_
        rw [Finset.sum_mul_sum, Finset.mul_sum]
        refine Finset.sum_congr rfl fun i _ => ?_
        rw [Finset.mul_sum]


theorem quadForm_gramTerm_nonneg (n : Nat) (t : CostTerm n)
    (hw : ∀ k, 0 ≤ t.w k) (x : Fin n → ℚ) :
    0 ≤ quadForm n (gramTerm n t) x := by
  rw [quadForm_gramTerm]
  refine Finset.sum_nonneg fun k _ => ?_
  exact mul_nonneg (hw k) (mul_self_nonneg _)


theorem gramTerm_symm (n : Nat) (t : CostTerm n) :
    matSymm n (gramTerm n t) := by
  intro i j
  unfold gramTerm
  exact Finset.sum_congr rfl fun k _ => by ring


theorem quadForm_addMat (n : Nat) (M N : QMat n) (x : Fin n → ℚ) :
    quadForm n (fun i j => M i j + N i j) x =
      quadForm n M x + quadForm n N x := by
  unfold quadForm
  rw [← Finset.sum_add_distrib]
  refine Finset.sum_congr rfl fun i _ => ?_
  rw [← Finset.sum_add_distrib]
  refine Finset.sum_congr rfl fun j _ => ?_
  ring


theorem quadForm_diag (n : Nat) (c : ℚ) (x : Fin n → ℚ) :
    quadForm n (fun i j => if i = j then c else 0) x =
      ∑ i, c * (x i * x i) := by
  unfold quadForm
  refine Finset.sum_congr rfl fun i _ => ?_
  calc ∑ j, x i * (if i = j then c else 0) * x j
      = ∑ j, if i = j then c * (x i * x j) else 0 := by
        refine Finset.sum_congr rfl fun j _ => ?_
        by_cases h : i = j
        · rw [if_pos h, if_pos h]
          ring
        · rw [if_neg h, if_neg h]
          ring
    _ = c * (x i * x i) := by
        rw [Finset.sum_ite_eq]
        simp


theorem hqpBase_symm (n : Nat) (terms : List (CostTerm n)) :
    matSymm n (hqpBase n terms) := by
  induction terms with
  | nil => intro i j; rfl
  | cons t ts ih =>
    intro i j
    unfold hqpBase
    rw [gramTerm_symm n t i j, ih i j]


theorem hqpBase_quadForm_nonneg (n : Nat) (terms : List (CostTerm n))
    (hw : ∀ t ∈ terms, ∀ k, 0 ≤ t.w k) (x : Fin n → ℚ) :
    0 ≤ quadForm n (hqpBase n terms) x := by
  induction terms with
  | nil =>
    unfold hqpBase quadForm
    simp
  | cons t ts ih =>
    unfold hqpBase
    rw [show (fun i j => gramTerm n t i j + hqpBase n ts i j) =
      (fun i j => gramTerm n t i j + hqpBase n ts i j) from rfl]
    rw [quadForm_addMat]
    have h1 := quadForm_gramTerm_nonneg n t
      (hw t (List.mem_cons_self t ts)) x
    have h2 := ih fun t' ht' => hw t' (List.mem_cons_of_mem t ht')
    linarith


/-- Claim C6: for every tick, the assembled cost matrix before regularization
is symmetric positive semi-definite (given the spec's nonnegative diagonal
weights), the regularized matrix adds exactly `REG` to every diagonal entry
and nothing off the diagonal, and the matrix handed to the solver is
symmetric strictly positive definite. -/
theorem hqpReg_posDef (n : Nat) (terms : List (CostTerm n))
    (hw : ∀ t ∈ terms, ∀ k, 0 ≤ t.w k) :
    matPSD n (hqpBase n terms) ∧
    (∀ i j, hqpReg n terms i j =
      hqpBase n terms i j + (if i = j then REG else 0)) ∧
    matPD n (hqpReg n terms) := by
  refine ⟨⟨hqpBase_symm n terms, hqpBase_quadForm_nonneg n terms hw⟩,
    fun i j => rfl, ?_, ?_⟩
  · intro i j
    unfold hqpReg
    rw [hqpBase_symm n terms i j]
    by_cases h : i = j
    · rw [if_pos h, if_pos h.symm]
    · rw [if_neg h, if_neg fun hji => h hji.symm]
  · intro x hx
    have hsplit : quadForm n (hqpReg n terms) x =
        quadForm n (hqpBase n terms) x + ∑ i, REG * (x i * x i) := by
      unfold hqpReg
      rw [quadForm_addMat, quadForm_diag]
    rw [hsplit]
    have hbase := hqpBase_quadForm_nonneg n terms hw x
    have hpos : 0 < ∑ i, REG * (x i * x i) := by
      rcases hx with ⟨i0, hi0⟩
      refine Finset.sum_pos' (fun i _ => ?_) ⟨i0, Finset.mem_univ i0, ?_⟩
      · exact mul_nonneg (by norm_num [REG]) (mul_self_nonneg _)
      · have : 0 < x i0 * x i0 := mul_self_pos.mpr hi0
        have hreg : (0 : ℚ) < REG := by norm_num [REG]
        exact mul_pos hreg this
    linarith


/-- Witness for C6: a two-dimensional decision vector with one rank-one cost
term of weight 2. -/
theorem hqpReg_posDef_witness :
    (∀ t ∈ [(⟨1, fun _ _ => 1, fun _ => 2⟩ : CostTerm 2)],
      ∀ k, (0 : ℚ) ≤ t.w k) ∧
    matPD 2 (hqpReg 2 [⟨1, fun _ _ => 1, fun _ => 2⟩]) := by
  have hw : ∀ t ∈ [(⟨1, fun _ _ => 1, fun _ => 2⟩ : CostTerm 2)],
      ∀ k, (0 : ℚ) ≤ t.w k := by
    intro t ht k
    rcases List.mem_singleton.mp ht with rfl
    norm_num
  exact ⟨hw, (hqpReg_posDef 2 [⟨1, fun _ _ => 1, fun _ => 2⟩] hw).2.2⟩


/-- Claim C8: the QP problem builder is deterministic and pure — two calls
whose input tuples are equal componentwise produce identical cost matrix,
cost vector and constraint blocks; there is no dependence on hidden global
state. -/
theorem buildQP_deterministic (n : Nat)
    (params1 params2 : WholeBodyParams n) (t1 t2 t_prev1 t_prev2 : ℚ)
    (q1 q2 qd1 qd2 q_des1 q_des2 q_integ1 q_integ2 : Fin n → ℚ)
    (cmdTerms1 cmdTerms2 : List (CostTerm n))
    (eqRows1 eqRows2 ineqRows1 ineqRows2 : List ((Fin n → ℚ) × ℚ))
    (hp : params1 = params2) (ht : t1 = t2) (htp : t_prev1 = t_prev2)
    (hq : q1 = q2) (hqd : qd1 = qd2) (hqdes : q_des1 = q_des2)
    (hqi : q_integ1 = q_integ2) (hcmd : cmdTerms1 = cmdTerms2)
    (heq : eqRows1 = eqRows2) (hineq : ineqRows1 = ineqRows2) :
    buildQP n params1 t1 t_prev1 q1 qd1 q_des1 q_integ1 cmdTerms1
        eqRows1 ineqRows1 =
      buildQP n params2 t2 t_prev2 q2 qd2 q_des2 q_integ2 cmdTerms2
        eqRows2 ineqRows2 := by
  subst hp ht htp hq hqd hqdes hqi hcmd heq hineq
  rfl


/-- Witness for C8: two builder calls on the same concrete one-DOF input. -/
theorem buildQP_deterministic_witness :
    buildQP 1 ⟨fun _ => 1, fun _ => 1, fun _ => 3, 1,
        ⟨fun _ => 1, fun _ => 1, 1 / 2⟩, ⟨fun _ => -10, fun _ => 10⟩⟩
      1 0 (fun _ => 0) (fun _ => 0) (fun _ => 2) (fun _ => 0) [] [] [] =
    buildQP 1 ⟨fun _ => 1, fun _ => 1, fun _ => 3, 1,
        ⟨fun _ => 1, fun _ => 1, 1 / 2⟩, ⟨fun _ => -10, fun _ => 10⟩⟩
      1 0 (fun _ => 0) (fun _ => 0) (fun _ => 2) (fun _ => 0) [] [] [] :=
  buildQP_deterministic 1 _ _ _ _ _ _ _ _ _ _ _ _ _ _ _ _ _ _ _ _
    rfl rfl rfl rfl rfl rfl rfl rfl rfl rfl


/-- Claim C7: the persistent controller state carries one previous-contact
boolean per candidate contact body (the two feet) and one integrator entry
per DOF — enforced by the `Fin 2` and `Fin n` index types fixed at
construction, so no tick can resize them — and a tick mutates each field
exactly once, through the designated component: the position-error integrator
becomes `wholeBodyPID`'s single update of the previous value, the
velocity-reference integrator and previous-contact booleans become
`velocityReference`'s single update, the active set and warm-start token come
from the solve orchestrator's result, and the timestamp advances to the
current time; no field is reset or written a second time within the tick. -/
theorem controllerTick_state_update (n : Nat) (wb : WholeBodyParams n)
    (vp : VRefIntegratorParams) (rpc : RobotPropertyCache n) (t : ℚ)
    (q qd q_des : Fin n → ℚ) (foot_contact : Fin 2 → Bool) (dim : Nat)
    (curSupports : List Nat)
    (fastSolve : List Nat → FastQPResult (Fin n → ℚ))
    (robustSolve : Unit → RobustResult (Fin n → ℚ))
    (s : ControllerState n) :
    ((controllerTick n wb vp rpc t q qd q_des foot_contact dim curSupports
        fastSolve robustSolve s).1.q_integrator_state =
      (wholeBodyPID n wb t s.t_prev q qd q_des s.q_integrator_state).2) ∧
    ((controllerTick n wb vp rpc t q qd q_des foot_contact dim curSupports
        fastSolve robustSolve s).1.vref_integrator_state =
      (velocityReference n vp rpc t s.t_prev qd
        (match solveTick (Fin n → ℚ) dim s.active fastSolve robustSolve with
          | .ok out => out.1
          | .error _ =>
            (wholeBodyPID n wb t s.t_prev q qd q_des
              s.q_integrator_state).1.qddot_des)
        s.vref_integrator_state foot_contact s.foot_contact_prev).1) ∧
    ((controllerTick n wb vp rpc t q qd q_des foot_contact dim curSupports
        fastSolve robustSolve s).1.foot_contact_prev = foot_contact) ∧
    ((controllerTick n wb vp rpc t q qd q_des foot_contact dim curSupports
        fastSolve robustSolve s).1.t_prev = t) ∧
    ((controllerTick n wb vp rpc t q qd q_des foot_contact dim curSupports
        fastSolve robustSolve s).1.active =
      match solveTick (Fin n → ℚ) dim s.active fastSolve robustSolve with
        | .ok out => out.2
        | .error _ => s.active) ∧
    ((controllerTick n wb vp rpc t q qd q_des foot_contact dim curSupports
        fastSolve robustSolve s).2 =
      solveTick (Fin n → ℚ) dim s.active fastSolve robustSolve) :=
  ⟨rfl, rfl, rfl, rfl, rfl, rfl⟩


/-- Claim C1: for every tick, a candidate support is in the resolver's active
set iff it is in the command list, marked available, and either sensed in
contact or with proxy below the configured threshold; a support flagged
unavailable is never active regardless of sensed contact, and a support
flagged available and sensed in contact is always active. -/
theorem activeSupports_membership (threshold : ℚ) (cmd : List SupportCandidate)
    (s : SupportCandidate) :
    (s ∈ activeSupports threshold cmd ↔
      s ∈ cmd ∧ (s.available = true ∧
        (s.contact_sensed = true ∨ s.proxy < threshold))) ∧
    (s.available = false → s ∉ activeSupports threshold cmd) ∧
    (s ∈ cmd → s.available = true → s.contact_sensed = true →
      s ∈ activeSupports threshold cmd) := by
  have hmem : s ∈ activeSupports threshold cmd ↔
      s ∈ cmd ∧ (s.available = true ∧
        (s.contact_sensed = true ∨ s.proxy < threshold)) := by
    unfold activeSupports supportActive
    rw [List.mem_filter]
    constructor
    · rintro ⟨hc, hs⟩
      refine ⟨hc, ?_⟩
      simp only [Bool.and_eq_true, Bool.or_eq_true, decide_eq_true_eq] at hs
      exact hs
    · rintro ⟨hc, ha, hb⟩
      refine ⟨hc, ?_⟩
      simp only [Bool.and_eq_true, Bool.or_eq_true, decide_eq_true_eq]
      exact ⟨ha, hb⟩
  refine ⟨hmem, ?_, ?_⟩
  · intro hun hin
    rcases hmem.mp hin with ⟨_, ha, _⟩
    rw [hun] at ha
    exact Bool.false_ne_true ha
  · intro hc ha hs
    exact hmem.mpr ⟨hc, ha, Or.inl hs⟩


/-- Witness for C1: evaluates the resolver at a concrete command list. -/
theorem activeSupports_membership_witness :
    (⟨0, true, true, (5 : ℚ)⟩ ∈
        activeSupports (1 : ℚ)
          [⟨0, true, true, (5 : ℚ)⟩, ⟨1, false, true, (0 : ℚ)⟩] ↔
      ⟨0, true, true, (5 : ℚ)⟩ ∈
          [(⟨0, true, true, (5 : ℚ)⟩ : SupportCandidate),
            ⟨1, false, true, (0 : ℚ)⟩] ∧
        ((true : Bool) = true ∧
          ((true : Bool) = true ∨ (5 : ℚ) < 1))) ∧
    ((true : Bool) = false →
      ⟨0, true, true, (5 : ℚ)⟩ ∉
        activeSupports (1 : ℚ)
          [⟨0, true, true, (5 : ℚ)⟩, ⟨1, false, true, (0 : ℚ)⟩]) ∧
    (⟨0, true, true, (5 : ℚ)⟩ ∈
        [(⟨0, true, true, (5 : ℚ)⟩ : SupportCandidate),
          ⟨1, false, true, (0 : ℚ)⟩] →
      (true : Bool) = true → (true : Bool) = true →
      ⟨0, true, true, (5 : ℚ)⟩ ∈
        activeSupports (1 : ℚ)
          [⟨0, true, true, (5 : ℚ)⟩, ⟨1, false, true, (0 : ℚ)⟩]) :=
  activeSupports_membership (1 : ℚ)
    [⟨0, true, true, (5 : ℚ)⟩, ⟨1, false, true, (0 : ℚ)⟩]
    ⟨0, true, true, (5 : ℚ)⟩


end QPCtrl
